import Mathlib

/-!
# TalentMatch-NLP : formal model of the matching engine

Shallow embedding of the embedding/matching core of the TalentMatch-NLP
repository.  Python floats are modelled as exact rationals (`ℚ`) where the
code only adds, multiplies and compares, and as reals (`ℝ`) where the code
takes square roots (vector norms).  Python dicts are association lists read
by first match; Python exceptions are `Except` values.
-/

/-- First-match lookup in an association list; the model of reading a Python
dict key (`d[k]` / `d.get(k)`). -/
def lookupD {α β : Type} [DecidableEq α] : List (α × β) → α → Option β
  | [], _ => none
  | (k, v) :: rest, a => if k = a then some v else lookupD rest a

/-- The model of the Python dict merge `{**old, **upd}` : keys of `upd` win,
all other keys of `old` keep their value. -/
def mergeDict {β : Type} (old upd : List (String × β)) : List (String × β) :=
  old.filter (fun kv => (lookupD upd kv.1).isNone) ++ upd

/-- Squared Euclidean (L2) distance used by `faiss.IndexFlatL2`. -/
def sqDist (u v : List ℚ) : ℚ := (List.zipWith (fun a b => (a - b) ^ 2) u v).sum

/-- A FAISS flat L2 index: the dense store of vectors at positions `0..N-1`
(`embedding_service.py`, `build_faiss_index`). -/
structure FaissIndex where
  vectors : List (List ℚ)
deriving DecidableEq

/-- Insert a `(position, distance)` pair into a list sorted by ascending
distance with ties broken by ascending position. -/
def insertRanked (a : ℕ × ℚ) : List (ℕ × ℚ) → List (ℕ × ℚ)
  | [] => [a]
  | b :: bs =>
    if a.2 < b.2 ∨ (a.2 = b.2 ∧ a.1 ≤ b.1) then a :: b :: bs else b :: insertRanked a bs

/-- Sort `(position, distance)` pairs by ascending distance, ties by position. -/
def sortRanked : List (ℕ × ℚ) → List (ℕ × ℚ)
  | [] => []
  | a :: as => insertRanked a (sortRanked as)

/-- `faiss.Index.search` on a flat L2 index: the `top_k` positions ordered by
ascending distance (ties by ascending position), and — FAISS's documented
behaviour when fewer than `top_k` entries exist — the remaining slots padded
with the label `-1`. -/
def faissSearchIds (vecs : List (List ℚ)) (q : List ℚ) (k : ℕ) : List ℤ :=
  let scored := (List.range vecs.length).map (fun i => (i, sqDist q (vecs.getD i [])))
  let sorted := sortRanked scored
  ((sorted.take k).map (fun p => (p.1 : ℤ))) ++ List.replicate (k - vecs.length) (-1)

/-- The mutable state of `EmbeddingService`: the two optional FAISS indexes and
the two position→metadata dicts (`cv_metadata`, `job_metadata`).  Metadata
values are abstracted to an identifying string. -/
structure ServiceState where
  cv_index : Option FaissIndex
  job_index : Option FaissIndex
  cv_metadata : List (ℤ × String)
  job_metadata : List (ℤ × String)
deriving DecidableEq

/-- The list comprehension `[metadata[i] for i in I[0]]`: look every position
up in the metadata dict; a missing key makes the whole comprehension raise
`KeyError` (`none`). -/
def lookupAll (meta : List (ℤ × String)) : List ℤ → Option (List String)
  | [] => some []
  | i :: is =>
    match lookupD meta i with
    | none => none
    | some m =>
      match lookupAll meta is with
      | none => none
      | some ms => some (m :: ms)

/-- One branch body of `search_similar`: run the FAISS search, then look every
returned position up in the metadata dict.  A position absent from the dict
(such as FAISS's `-1` padding) raises `KeyError` exactly as the Python list
comprehension does. -/
def searchIn (idx : FaissIndex) (meta : List (ℤ × String)) (q : List ℚ) (k : ℕ) :
    Except String (List String) :=
  match lookupAll meta (faissSearchIds idx.vectors q k) with
  | some results => Except.ok results
  | none => Except.error "KeyError"

/-- `EmbeddingService.search_similar`: dispatch on `index_type`; a missing
(`None`) index raises `ValueError("FAISS index bulunamadi")`.  A present index
object is truthy in Python even when it holds no vectors. -/
def searchSimilar (st : ServiceState) (q : List ℚ) (top_k : ℕ) (index_type : String) :
    Except String (List String) :=
  if h : index_type = "cv" ∧ st.cv_index.isSome then
    searchIn (st.cv_index.get h.2) st.cv_metadata q top_k
  else if h2 : index_type = "job" ∧ st.job_index.isSome then
    searchIn (st.job_index.get h2.2) st.job_metadata q top_k
  else
    Except.error "FAISS index bulunamadi"

/-- The persisted form written by `save_index`: the FAISS index contents
(`faiss.write_index`) together with the pickled metadata dict. -/
structure IndexSnapshot where
  vectors : List (List ℚ)
  metadata : List (ℤ × String)
deriving DecidableEq

/-- `EmbeddingService.save_index`: serializes the selected index and its
metadata; when the selected index is absent (`None`) nothing is written. -/
def saveIndex (st : ServiceState) (index_type : String) : Option IndexSnapshot :=
  if h : index_type = "cv" ∧ st.cv_index.isSome then
    some ⟨(st.cv_index.get h.2).vectors, st.cv_metadata⟩
  else if h2 : index_type = "job" ∧ st.job_index.isSome then
    some ⟨(st.job_index.get h2.2).vectors, st.job_metadata⟩
  else none

/-- `EmbeddingService.load_index`: replaces the selected index and its metadata
with the deserialized snapshot contents. -/
def loadIndex (st : ServiceState) (snap : IndexSnapshot) (index_type : String) : ServiceState :=
  if index_type = "cv" then
    { st with cv_index := some ⟨snap.vectors⟩, cv_metadata := snap.metadata }
  else if index_type = "job" then
    { st with job_index := some ⟨snap.vectors⟩, job_metadata := snap.metadata }
  else st

/-- Metadata dicts produced by the service (`{i: m for i, m in enumerate(...)}`
and the spec's append-at-next-free-position `add`) only hold nonnegative
positions as keys. -/
def MetaKeysNonneg (d : List (ℤ × String)) : Prop := ∀ p ∈ d, 0 ≤ p.1

/-- A concrete service state whose cv index holds exactly 2 live entries. -/
def twoEntryState : ServiceState :=
  { cv_index := some ⟨[[0], [1]]⟩
    job_index := none
    cv_metadata := [(0, "cv-a"), (1, "cv-b")]
    job_metadata := [] }

/-! ## Text canonicalization (`create_cv_embedding` / `create_job_embedding`) -/

/-- Python `str.lower()`, character by character. -/
def lowerStr (s : String) : String := ⟨s.data.map Char.toLower⟩

/-- Python `not s.strip()`: the string is empty or all whitespace. -/
def isBlank (s : String) : Bool := s.data.all Char.isWhitespace

/-- Python `s.strip()`: remove leading and trailing whitespace. -/
def stripStr (s : String) : String :=
  ⟨((s.data.dropWhile Char.isWhitespace).reverse.dropWhile Char.isWhitespace).reverse⟩

/-- Python `s[:n]`: the first `n` characters. -/
def takeStr (s : String) (n : ℕ) : String := ⟨s.data.take n⟩

/-- One education entry of parsed CV data (`degree`, `field`, `institution`). -/
structure EduEntry where
  degree : String
  field : String
  institution : String
deriving DecidableEq

/-- One experience entry of parsed CV data (`position`, `company`,
`description`). -/
structure ExpEntry where
  position : String
  company : String
  description : String
deriving DecidableEq

/-- Parsed CV data as consumed by `create_cv_embedding`.  A Python-falsy value
(absent key, empty string, empty list) is modelled as `""` / `[]`. -/
structure CvData where
  name : String
  education : List EduEntry
  experience : List ExpEntry
  skills : List String
  raw_text : String
deriving DecidableEq

/-- Job-posting data as consumed by `create_job_embedding`. -/
structure JobData where
  title : String
  company : String
  description : String
  required_skills : List String
deriving DecidableEq

/-- `f"{edu.get('degree','')} {edu.get('field','')} {edu.get('institution','')}".strip()` -/
def eduLine (e : EduEntry) : String :=
  stripStr (e.degree ++ " " ++ e.field ++ " " ++ e.institution)

/-- `f"{exp.get('position','')} {exp.get('company','')} {exp.get('description','')}".strip()` -/
def expLine (e : ExpEntry) : String :=
  stripStr (e.position ++ " " ++ e.company ++ " " ++ e.description)

/-- The combined text built by `create_cv_embedding`: identity, education,
experience and skills lines plus the first 1000 characters of the raw text,
each included only when its source field is truthy, joined by single spaces. -/
def buildCvText (cv : CvData) : String :=
  let parts :=
    (if cv.name ≠ "" then ["İsim: " ++ cv.name] else []) ++
    (if cv.education ≠ [] then
      ["Eğitim: " ++ String.intercalate " " (cv.education.map eduLine)] else []) ++
    (if cv.experience ≠ [] then
      ["Tecrübe: " ++ String.intercalate " " (cv.experience.map expLine)] else []) ++
    (if cv.skills ≠ [] then ["Beceriler: " ++ String.intercalate " " cv.skills] else []) ++
    (if cv.raw_text ≠ "" then [takeStr cv.raw_text 1000] else [])
  String.intercalate " " parts

/-- The combined text built by `create_job_embedding`. -/
def buildJobText (job : JobData) : String :=
  let parts :=
    (if job.title ≠ "" then ["Pozisyon: " ++ job.title] else []) ++
    (if job.company ≠ "" then ["Şirket: " ++ job.company] else []) ++
    (if job.description ≠ "" then ["Açıklama: " ++ job.description] else []) ++
    (if job.required_skills ≠ [] then
      ["Gereken Beceriler: " ++ String.intercalate " " job.required_skills] else [])
  String.intercalate " " parts

/-- `EmbeddingService.create_cv_embedding`, with the SBERT encoder abstracted
as an opaque `encode` function: raises `ValueError` (the spec's
`EmptyDocumentError`) when the combined text is blank, otherwise encodes it.
The exception is logged and re-raised, so it propagates to the caller. -/
def createCvEmbedding (encode : String → List ℚ) (cv : CvData) : Except String (List ℚ) :=
  let combined := buildCvText cv
  if isBlank combined then
    Except.error "EmptyDocumentError: yeterli metin bulunamadi"
  else
    Except.ok (encode combined)

/-- `EmbeddingService.create_job_embedding`, encoder abstracted as `encode`. -/
def createJobEmbedding (encode : String → List ℚ) (job : JobData) : Except String (List ℚ) :=
  let combined := buildJobText job
  if isBlank combined then
    Except.error "EmptyDocumentError: yeterli metin bulunamadi"
  else
    Except.ok (encode combined)

/-! ## Reindex (`match_router.reindex_embeddings`) -/

/-- The in-place clearing performed first by the reindex route:
`cv_index = None; job_index = None; cv_metadata = {}; job_metadata = {}`
on the live service instance. -/
def clearedIndexes (_st : ServiceState) : ServiceState :=
  { cv_index := none, job_index := none, cv_metadata := [], job_metadata := [] }

/-- Modelled from the spec: `add_cv_to_index` is called by the reindex route
(and by `cv_router`) but is absent from the source.  Per spec §4.3, `add`
appends the vector at the next free position of the cv index — creating the
index when absent — and records the entry's metadata at that position.
(The spec's tombstoning of a previous entry with the same id cannot trigger
during a rebuild, which inserts each id once, and is omitted.) -/
def add_cv_to_index (st : ServiceState) (vec : List ℚ) (meta : String) : ServiceState :=
  let oldVecs := (st.cv_index.map FaissIndex.vectors).getD []
  { st with
    cv_index := some ⟨oldVecs ++ [vec]⟩
    cv_metadata := st.cv_metadata ++ [((oldVecs.length : ℤ), meta)] }

/-- The states of the live service observable during the cv loop of the
reindex route: the cleared state, then the state after each
`add_cv_to_index` call.  The route is `async` and suspends between records,
so each of these states is visible to concurrent readers. -/
def reindexStates (st : ServiceState) (records : List (List ℚ × String)) :
    List ServiceState :=
  List.scanl (fun s r => add_cv_to_index s r.1 r.2) (clearedIndexes st) records

/-! ## Admin parameters (`admin_parameter_service.py`, `enhanced_admin_router.py`) -/

/-- The fields of a `matching_algorithm` parameter update; `none` models an
absent key. -/
structure MatchingParamsUpdate where
  similarity_threshold : Option ℚ
  skills_weight : Option ℚ
  experience_weight : Option ℚ
  education_weight : Option ℚ
  other_weight : Option ℚ
deriving DecidableEq

/-- The dict returned by `AdminParameterService.validate_parameters`. -/
structure ValidationResult where
  valid : Bool
  errors : List String
deriving DecidableEq

def weightSumErrorMsg : String := "Ağırlıkların toplamı 1.0 olmalı"

/-- The effective weight sum checked by `validate_parameters`: each supplied
weight, with the defaults `0.4 / 0.3 / 0.2 / 0.1` substituted for absent
keys. -/
def effectiveWeightSum (p : MatchingParamsUpdate) : ℚ :=
  p.skills_weight.getD (4/10) + p.experience_weight.getD (3/10) +
    p.education_weight.getD (2/10) + p.other_weight.getD (1/10)

/-- `AdminParameterService.validate_parameters` for the `matching_algorithm`
category: range checks on the supplied `similarity_threshold` and
`skills_weight`, then the weight-sum check `abs(sum(weights) - 1.0) > 0.01`;
`valid` iff no error was collected. -/
def validateMatchingParameters (p : MatchingParamsUpdate) : ValidationResult :=
  let e1 := match p.similarity_threshold with
    | some t => if 0 ≤ t ∧ t ≤ 1 then [] else ["similarity_threshold 0.0-1.0 arasında olmalı"]
    | none => []
  let e2 := match p.skills_weight with
    | some w => if 0 ≤ w ∧ w ≤ 1 then [] else ["skills_weight 0.0-1.0 arasında olmalı"]
    | none => []
  let e3 := if |effectiveWeightSum p - 1| > 1/100 then [weightSumErrorMsg] else []
  let errors := e1 ++ e2 ++ e3
  { valid := errors.isEmpty, errors := errors }

/-- The supplied fields of a `matching_algorithm` update as dict entries. -/
def paramEntries (p : MatchingParamsUpdate) : List (String × ℚ) :=
  (p.similarity_threshold.map (fun t => ("similarity_threshold", t))).toList ++
  (p.skills_weight.map (fun w => ("skills_weight", w))).toList ++
  (p.experience_weight.map (fun w => ("experience_weight", w))).toList ++
  (p.education_weight.map (fun w => ("education_weight", w))).toList ++
  (p.other_weight.map (fun w => ("other_weight", w))).toList

/-- The `PUT /parameters/matching_algorithm` route of
`enhanced_admin_router.py`: validate first; on failure raise HTTP 400 with the
validation errors before `update_parameters` runs, otherwise merge the
supplied keys into the stored category. -/
def updateMatchingParametersEndpoint (store : List (String × ℚ)) (p : MatchingParamsUpdate) :
    Except (ℕ × List String) (List (String × ℚ)) :=
  let v := validateMatchingParameters p
  if v.valid then Except.ok (mergeDict store (paramEntries p))
  else Except.error (400, v.errors)

/-- Python dict assignment `d[k] = v` on an association list: replace the
value when the key is present, append otherwise. -/
def setCategory {β : Type} (cats : List (String × β)) (c : String) (v : β) :
    List (String × β) :=
  if (lookupD cats c).isSome then
    cats.map (fun kv => if kv.1 = c then (c, v) else kv)
  else cats ++ [(c, v)]

/-- `AdminParameterService.update_parameters`: read the current parameters,
merge the supplied keys over the current category
(`{**current.get(category, {}), **parameters}`), store the result.  Parameter
values are abstracted over a type `V`. -/
def updateParameters {V : Type} (store : List (String × List (String × V)))
    (category : String) (parameters : List (String × V)) :
    List (String × List (String × V)) :=
  let current := (lookupD store category).getD []
  setCategory store category (mergeDict current parameters)

/-! ## Skills scoring and advanced-search filtering -/

/-- Modelled from the spec: the Match Scorer breakdown (`analyze_match_details`)
is called by the API routers but never defined in the source.  Per spec §4.4
skills are compared on lowercase-normalized names; `matched` is the list of
required skills present in the candidate list. -/
def matchedSkills (required candidate : List String) : List String :=
  required.filter (fun r => (candidate.map lowerStr).contains (lowerStr r))

/-- Modelled from the spec: required skills absent from the candidate list. -/
def missingSkills (required candidate : List String) : List String :=
  required.filter (fun r => !((candidate.map lowerStr).contains (lowerStr r)))

/-- Modelled from the spec: candidate skills not required by the posting. -/
def extraSkills (required candidate : List String) : List String :=
  candidate.filter (fun c => !((required.map lowerStr).contains (lowerStr c)))

/-- Modelled from the spec:
`skills_score = |required ∩ candidate| / |required|` on lowercase-normalized
skill names, and 1.0 by convention when `required` is empty. -/
def skillsScore (required candidate : List String) : ℚ :=
  if required.isEmpty then 1
  else ((matchedSkills required candidate).length : ℚ) / (required.length : ℚ)

/-- `advanced_job_search`: search parameters taken from the request body with
their defaults (`top_k=20`, `min_score=50.0`, `required_skills=[]`,
`experience_years=0`, `education_level=''`). -/
structure SearchParams where
  top_k : ℕ
  min_score : ℚ
  required_skills : List String
  experience_years : ℕ
  education_level : String
deriving DecidableEq

/-- One `(cv_id, score, cv_data)` triple returned by the retrieval step
(`find_matching_cvs`), keeping the cv fields the filters read. -/
structure MatchEntry where
  cv_id : String
  score : ℚ
  skills : List String
  experience_count : ℕ
  degrees : List String
deriving DecidableEq

/-- Is `lead` an initial segment of the second list? -/
def leadEqChars : List Char → List Char → Bool
  | [], _ => true
  | _ :: _, [] => false
  | a :: as, b :: bs => a = b && leadEqChars as bs

/-- Does the second list contain the first as a contiguous sublist?  The model
of Python `needle in hay` on strings. -/
def hasSubChars (needle : List Char) : List Char → Bool
  | [] => leadEqChars needle []
  | c :: cs => leadEqChars needle (c :: cs) || hasSubChars needle cs

/-- Python `needle in hay` for strings. -/
def strContainsSub (hay needle : String) : Bool := hasSubChars needle.data hay.data

/-- `required_matched = sum(1 for skill in required_skills if skill.lower() in
cv_skills)` with `cv_skills` the lowercased candidate skills. -/
def requiredMatchedCount (required cvSkills : List String) : ℕ :=
  (required.filter (fun s => (cvSkills.map lowerStr).contains (lowerStr s))).length

/-- The skill filter of `advanced_job_search`: with a non-empty
`required_skills`, drop the candidate when
`required_matched < len(required_skills) * 0.7`. -/
def passesSkillFilter (required cvSkills : List String) : Bool :=
  required.isEmpty ||
    decide ((required.length : ℚ) * (7/10) ≤ (requiredMatchedCount required cvSkills : ℚ))

/-- All four filters of `advanced_job_search`, in source order: `min_score`,
required skills, experience-entry count, education-level substring. -/
def passesFilters (p : SearchParams) (e : MatchEntry) : Bool :=
  !(decide (e.score < p.min_score)) &&
  passesSkillFilter p.required_skills e.skills &&
  (decide (p.experience_years = 0) || decide (p.experience_years ≤ e.experience_count)) &&
  (decide (p.education_level = "") ||
    e.degrees.any (fun d => strContainsSub (lowerStr d) (lowerStr p.education_level)))

/-- The retained candidates of `advanced_job_search`: the scored matches that
pass every filter, truncated to `top_k`. -/
def advancedSearchResults (found : List MatchEntry) (p : SearchParams) : List MatchEntry :=
  (found.filter (passesFilters p)).take p.top_k

/-! ## Pairwise similarity (`match_router.calculate_similarity`) -/

/-- `np.dot` on real vectors. -/
def dotR (u v : List ℝ) : ℝ := (List.zipWith (fun a b => a * b) u v).sum

/-- `np.linalg.norm`: the Euclidean norm. -/
noncomputable def l2norm (u : List ℝ) : ℝ := Real.sqrt (dotR u u)

/-- `u / np.linalg.norm(u)`, elementwise. -/
noncomputable def normalizeR (u : List ℝ) : List ℝ := u.map (fun x => x / l2norm u)

/-- The `similarity_score` computed by `calculate_similarity`:
`float(np.dot(cv_norm, job_norm)) * 100` for the normalized embedding
vectors. -/
noncomputable def similarityScore (u v : List ℝ) : ℝ :=
  dotR (normalizeR u) (normalizeR v) * 100

/-! ## Helper lemmas -/

/-- A metadata dict with only nonnegative keys cannot resolve FAISS's `-1`
padding label. -/
lemma lookupD_neg_one_eq_none (d : List (ℤ × String)) (h : MetaKeysNonneg d) :
    lookupD d (-1) = none := by
  induction d with
  | nil => rfl
  | cons p rest ih =>
    have hp : 0 ≤ p.1 := h p (List.mem_cons_self p rest)
    have hne : p.1 ≠ -1 := by omega
    have hrest : MetaKeysNonneg rest := fun q hq => h q (List.mem_cons_of_mem p hq)
    cases p with
    | mk k v =>
      simp only [lookupD, if_neg (by simpa using hne)]
      exact ih hrest

/-- `mapM` over an association-list lookup, first-match semantics of
`lookupD` on appended lists. -/
lemma lookupD_append {α β : Type} [DecidableEq α] (l1 l2 : List (α × β)) (k : α) :
    lookupD (l1 ++ l2) k
      = match lookupD l1 k with
        | some v => some v
        | none => lookupD l2 k := by
  induction l1 with
  | nil => simp [lookupD]
  | cons p rest ih =>
    cases p with
    | mk k0 v0 =>
      by_cases hk : k0 = k
      · simp [lookupD, hk]
      · simpa [lookupD, hk] using ih

/-- On an index without vectors, FAISS returns only `-1` padding labels. -/
lemma faissSearchIds_nil (q : List ℚ) (k : ℕ) :
    faissSearchIds [] q k = List.replicate k (-1) := by
  simp [faissSearchIds, sortRanked]

/-- C6: `search_similar` against an absent (`None`) index raises `ValueError`
(the spec's `IndexNotReadyError`), and against a present-but-empty index it
never returns a non-empty ordinary result set: positions that do not exist
are never resolved to entries. -/
theorem search_empty_or_absent_index_fails (st : ServiceState) (q : List ℚ) (k : ℕ)
    (hwf : MetaKeysNonneg st.cv_metadata) :
    (st.cv_index = none →
      searchSimilar st q k "cv" = Except.error "FAISS index bulunamadi") ∧
    (∀ idx, st.cv_index = some idx → idx.vectors = [] →
      ∀ l, searchSimilar st q k "cv" = Except.ok l → l = []) := by
  constructor
  · intro hnone
    simp [searchSimilar, hnone]
  · intro idx hsome hvecs l hok
    have hsearch : searchSimilar st q k "cv" = searchIn idx st.cv_metadata q k := by
      simp [searchSimilar, hsome]
    rw [hsearch] at hok
    unfold searchIn at hok
    rw [hvecs, faissSearchIds_nil] at hok
    cases k with
    | zero =>
      simp [lookupAll] at hok
      exact hok
    | succ n =>
      have hnone : lookupD st.cv_metadata (-1) = none := lookupD_neg_one_eq_none _ hwf
      simp [List.replicate_succ, lookupAll, hnone] at hok

/-- Witness: on a concrete service state with no cv index, `search_similar`
raises the explicit not-ready error. -/
theorem search_empty_or_absent_index_fails_witness :
    searchSimilar ⟨none, none, [], []⟩ [0] 5 "cv" = Except.error "FAISS index bulunamadi" :=
  (search_empty_or_absent_index_fails ⟨none, none, [], []⟩ [0] 5
    (fun p hp => absurd hp (List.not_mem_nil p))).1 rfl

/-- C9: restoring the snapshot of an index yields identical search results —
entity metadata, order and count — for every query vector and `k`. -/
theorem snapshot_restore_search_roundtrip (st : ServiceState) (idx : FaissIndex)
    (q : List ℚ) (k : ℕ) (ty : String)
    (h : (ty = "cv" ∧ st.cv_index = some idx) ∨ (ty = "job" ∧ st.job_index = some idx)) :
    ∃ snap, saveIndex st ty = some snap ∧
      searchSimilar (loadIndex st snap ty) q k ty = searchSimilar st q k ty := by
  rcases h with ⟨hty, hidx⟩ | ⟨hty, hidx⟩
  · subst hty
    refine ⟨⟨idx.vectors, st.cv_metadata⟩, ?_, ?_⟩
    · simp [saveIndex, hidx]
    · simp [searchSimilar, loadIndex, hidx]
  · subst hty
    refine ⟨⟨idx.vectors, st.job_metadata⟩, ?_, ?_⟩
    · simp [saveIndex, hidx]
    · simp [searchSimilar, loadIndex, hidx]

/-- Witness: the snapshot round-trip at a concrete two-entry cv index. -/
theorem snapshot_restore_search_roundtrip_witness :
    ∃ snap, saveIndex twoEntryState "cv" = some snap ∧
      searchSimilar (loadIndex twoEntryState snap "cv") [0] 2 "cv"
        = searchSimilar twoEntryState [0] 2 "cv" :=
  snapshot_restore_search_roundtrip twoEntryState ⟨[[0], [1]]⟩ [0] 2 "cv"
    (Or.inl ⟨rfl, rfl⟩)

/-- C5 names a code bug: on an index with 2 live entries and `top_k = 10`,
FAISS pads the result positions with `-1`, the metadata dict lookup
`metadata[-1]` raises `KeyError`, and `search_similar` re-raises — instead of
returning exactly the 2 live results, as the spec's boundary scenario
requires. -/
theorem search_k_exceeding_live_entries_raises :
    searchSimilar twoEntryState [0] 10 "cv" = Except.error "KeyError" := by
  have h0 : sqDist [0] [0] = 0 := by norm_num [sqDist]
  have h1 : sqDist [0] [1] = 1 := by norm_num [sqDist]
  have hids : faissSearchIds [[0], [1]] [0] 10
      = [0, 1, -1, -1, -1, -1, -1, -1, -1, -1] := by
    simp [faissSearchIds, sortRanked, insertRanked, h0, h1, List.range_succ]
  simp [searchSimilar, twoEntryState, searchIn, hids, lookupAll, lookupD]

/-- C7: a record whose canonicalized text is blank is rejected with the
empty-document error, which propagates to the caller; an embedding is only
ever produced for a non-blank canonical text, so no vector for an empty
string is built or added to an index. -/
theorem blank_document_rejected (encode : String → List ℚ) (cv : CvData) (job : JobData) :
    (isBlank (buildCvText cv) = true →
      createCvEmbedding encode cv
        = Except.error "EmptyDocumentError: yeterli metin bulunamadi") ∧
    (∀ v, createCvEmbedding encode cv = Except.ok v →
      isBlank (buildCvText cv) = false ∧ v = encode (buildCvText cv)) ∧
    (isBlank (buildJobText job) = true →
      createJobEmbedding encode job
        = Except.error "EmptyDocumentError: yeterli metin bulunamadi") ∧
    (∀ v, createJobEmbedding encode job = Except.ok v →
      isBlank (buildJobText job) = false ∧ v = encode (buildJobText job)) := by
  refine ⟨?_, ?_, ?_, ?_⟩
  · intro hblank
    simp [createCvEmbedding, hblank]
  · intro v hok
    by_cases hblank : isBlank (buildCvText cv) = true
    · simp [createCvEmbedding, hblank] at hok
    · refine ⟨by simpa using hblank, ?_⟩
      simp [createCvEmbedding, hblank] at hok
      exact hok.symm
  · intro hblank
    simp [createJobEmbedding, hblank]
  · intro v hok
    by_cases hblank : isBlank (buildJobText job) = true
    · simp [createJobEmbedding, hblank] at hok
    · refine ⟨by simpa using hblank, ?_⟩
      simp [createJobEmbedding, hblank] at hok
      exact hok.symm

/-- Witness: the all-empty CV record canonicalizes to a blank text and is
rejected; a CV with one skill is accepted and its text is encoded. -/
theorem blank_document_rejected_witness :
    createCvEmbedding (fun _ => [0]) ⟨"", [], [], [], ""⟩
      = Except.error "EmptyDocumentError: yeterli metin bulunamadi" ∧
    createJobEmbedding (fun _ => [0]) ⟨"", "", "", []⟩
      = Except.error "EmptyDocumentError: yeterli metin bulunamadi" :=
  ⟨(blank_document_rejected (fun _ => [0]) ⟨"", [], [], [], ""⟩ ⟨"", "", "", []⟩).1
      (by decide),
   (blank_document_rejected (fun _ => [0]) ⟨"", [], [], [], ""⟩ ⟨"", "", "", []⟩).2.2.1
      (by decide)⟩

/-- Position `i` of a `scanl` trace is the fold over the first `i` inputs. -/
lemma scanl_get_eq_foldl_take {α β : Type} (f : β → α → β) (b : β) (l : List α)
    (i : ℕ) (h : i ≤ l.length) :
    (List.scanl f b l).get? i = some (List.foldl f b (l.take i)) := by
  induction l generalizing b i with
  | nil =>
    have hi : i = 0 := Nat.le_zero.mp (by simpa using h)
    subst hi
    simp [List.scanl]
  | cons a as ih =>
    cases i with
    | zero => simp [List.scanl]
    | succ j =>
      have hj : j ≤ as.length := by simpa using h
      simpa [List.scanl] using ih (f b a) j hj

/-- C8 counterexample: starting from a one-entry cv index, the reindex route
reaches an observable state (the in-place cleared one) that is neither the
complete old index nor the complete new index. -/
theorem reindex_not_atomic_counterexample :
    ¬ (∀ s ∈ reindexStates ⟨some ⟨[[1]]⟩, none, [(0, "old-cv")], []⟩
          [([2], "cv-a"), ([3], "cv-b")],
        s = ⟨some ⟨[[1]]⟩, none, [(0, "old-cv")], []⟩ ∨
        s = (reindexStates ⟨some ⟨[[1]]⟩, none, [(0, "old-cv")], []⟩
              [([2], "cv-a"), ([3], "cv-b")]).getLastD ⟨none, none, [], []⟩) := by
  intro hall
  have hmem : clearedIndexes ⟨some ⟨[[1]]⟩, none, [(0, "old-cv")], []⟩ ∈
      reindexStates ⟨some ⟨[[1]]⟩, none, [(0, "old-cv")], []⟩
        [([2], "cv-a"), ([3], "cv-b")] := by
    simp [reindexStates, List.scanl]
  rcases hall _ hmem with hold | hnew
  · simp [clearedIndexes, ServiceState.mk.injEq] at hold
  · rw [show (reindexStates ⟨some ⟨[[1]]⟩, none, [(0, "old-cv")], []⟩
        [([2], "cv-a"), ([3], "cv-b")]).getLastD ⟨none, none, [], []⟩
        = add_cv_to_index (add_cv_to_index
            (clearedIndexes ⟨some ⟨[[1]]⟩, none, [(0, "old-cv")], []⟩) [2] "cv-a") [3] "cv-b"
      from by simp [reindexStates, List.scanl]] at hnew
    simp [clearedIndexes, add_cv_to_index] at hnew

/-- C8 (amended): the reindex route clears the live indexes in place before
rebuilding, then adds records one at a time to the live service.  The first
observable state of the rebuild is the cleared state (old index discarded),
and after `i` records the observable state holds exactly the first `i`
records — so a concurrent reader can observe an empty or partially populated
index, and an abandoned rebuild leaves that state, not the old index. -/
theorem reindex_clears_then_rebuilds_in_place (st : ServiceState)
    (records : List (List ℚ × String)) (i : ℕ) (hi : i ≤ records.length) :
    (reindexStates st records).get? 0 = some (clearedIndexes st) ∧
    (clearedIndexes st).cv_index = none ∧
    (clearedIndexes st).job_index = none ∧
    (reindexStates st records).get? i
      = some (List.foldl (fun s r => add_cv_to_index s r.1 r.2) (clearedIndexes st)
          (records.take i)) := by
  refine ⟨?_, rfl, rfl, ?_⟩
  · simp [reindexStates]
  · exact scanl_get_eq_foldl_take _ _ _ i hi

/-- Witness: the in-place rebuild trace at a concrete initial state and one
record. -/
theorem reindex_clears_then_rebuilds_in_place_witness :
    (reindexStates ⟨some ⟨[[1]]⟩, none, [(0, "old-cv")], []⟩ [([2], "cv-a")]).get? 0
      = some (clearedIndexes ⟨some ⟨[[1]]⟩, none, [(0, "old-cv")], []⟩) ∧
    (clearedIndexes ⟨some ⟨[[1]]⟩, none, [(0, "old-cv")], []⟩).cv_index = none :=
  let h := reindex_clears_then_rebuilds_in_place
    ⟨some ⟨[[1]]⟩, none, [(0, "old-cv")], []⟩ [([2], "cv-a")] 1 (by simp)
  ⟨h.1, h.2.1⟩

/-- Filtering an association list by a predicate on keys that accepts `k`
does not change what `k` resolves to. -/
lemma lookupD_filterKey_true {β : Type} (p : String → Bool) (l : List (String × β))
    (k : String) (hk : p k = true) :
    lookupD (l.filter (fun kv => p kv.1)) k = lookupD l k := by
  induction l with
  | nil => rfl
  | cons q rest ih =>
    obtain ⟨k0, w⟩ := q
    by_cases hk0 : k0 = k
    · subst hk0
      simp [List.filter_cons, hk, lookupD]
    · cases hp : p k0 <;> simp [List.filter_cons, hp, lookupD, hk0, ih]

/-- Filtering an association list by a predicate on keys that rejects `k`
removes every binding of `k`. -/
lemma lookupD_filterKey_false {β : Type} (p : String → Bool) (l : List (String × β))
    (k : String) (hk : p k = false) :
    lookupD (l.filter (fun kv => p kv.1)) k = none := by
  induction l with
  | nil => rfl
  | cons q rest ih =>
    obtain ⟨k0, w⟩ := q
    by_cases hk0 : k0 = k
    · subst hk0
      simp [List.filter_cons, hk, lookupD, ih]
    · cases hp : p k0 <;> simp [List.filter_cons, hp, lookupD, hk0, ih]

/-- `{**old, **upd}[k] = upd[k]` when `k` is among the updated keys. -/
lemma lookupD_mergeDict_supplied {β : Type} (old upd : List (String × β)) (k : String)
    (v : β) (h : lookupD upd k = some v) :
    lookupD (mergeDict old upd) k = some v := by
  unfold mergeDict
  rw [lookupD_append, lookupD_filterKey_false (fun k1 => (lookupD upd k1).isNone) old k
    (by simp [h])]
  simp [h]

/-- `{**old, **upd}[k] = old[k]` when `k` is not among the updated keys. -/
lemma lookupD_mergeDict_missing {β : Type} (old upd : List (String × β)) (k : String)
    (h : lookupD upd k = none) :
    lookupD (mergeDict old upd) k = lookupD old k := by
  unfold mergeDict
  rw [lookupD_append, lookupD_filterKey_true (fun k1 => (lookupD upd k1).isNone) old k
    (by simp [h])]
  cases h2 : lookupD old k <;> simp [h, h2]

/-- Replacing the value bound to `c` in an association list makes `c` resolve
to the new value, provided `c` was bound. -/
lemma lookupD_mapReplace_self {β : Type} (cats : List (String × β)) (c : String) (v : β)
    (hs : (lookupD cats c).isSome = true) :
    lookupD (cats.map (fun kv => if kv.1 = c then (c, v) else kv)) c = some v := by
  induction cats with
  | nil => simp [lookupD] at hs
  | cons p rest ih =>
    obtain ⟨k0, w⟩ := p
    by_cases hk : k0 = c
    · subst hk
      rw [List.map_cons, if_pos rfl]
      simp [lookupD]
    · have hs2 : (lookupD rest c).isSome = true := by
        simp only [lookupD, if_neg hk] at hs
        exact hs
      rw [List.map_cons, if_neg hk]
      simp only [lookupD, if_neg hk]
      exact ih hs2

/-- Replacing the value bound to `c` leaves every other key unchanged. -/
lemma lookupD_mapReplace_other {β : Type} (cats : List (String × β)) (c : String) (v : β)
    (c2 : String) (h : c2 ≠ c) :
    lookupD (cats.map (fun kv => if kv.1 = c then (c, v) else kv)) c2 = lookupD cats c2 := by
  induction cats with
  | nil => rfl
  | cons p rest ih =>
    obtain ⟨k0, w⟩ := p
    by_cases hk : k0 = c
    · subst hk
      have hk2 : k0 ≠ c2 := Ne.symm h
      rw [List.map_cons, if_pos rfl]
      simp only [lookupD, if_neg hk2]
      exact ih
    · rw [List.map_cons, if_neg hk]
      by_cases hk2 : k0 = c2
      · subst hk2
        simp [lookupD]
      · simp only [lookupD, if_neg hk2]
        exact ih

/-- Dict assignment stores the assigned value at the assigned key. -/
lemma lookupD_setCategory_self {β : Type} (cats : List (String × β)) (c : String) (v : β) :
    lookupD (setCategory cats c v) c = some v := by
  unfold setCategory
  by_cases hs : (lookupD cats c).isSome
  · rw [if_pos hs]
    exact lookupD_mapReplace_self cats c v hs
  · rw [if_neg hs, lookupD_append]
    rw [Option.not_isSome_iff_eq_none] at hs
    simp [hs, lookupD]

/-- Dict assignment leaves every other key unchanged. -/
lemma lookupD_setCategory_other {β : Type} (cats : List (String × β)) (c : String)
    (v : β) (c2 : String) (h : c2 ≠ c) :
    lookupD (setCategory cats c v) c2 = lookupD cats c2 := by
  unfold setCategory
  by_cases hs : (lookupD cats c).isSome
  · rw [if_pos hs]
    exact lookupD_mapReplace_other cats c v c2 h
  · rw [if_neg hs, lookupD_append]
    cases h2 : lookupD cats c2 with
    | some w => rfl
    | none => simp [lookupD, Ne.symm h]

/-- C10: `update_parameters` merges only the supplied keys into the selected
category — every unsupplied key of that category keeps its prior value, every
supplied key takes its new value — and every other category is left
unchanged. -/
theorem update_parameters_merge_frame {V : Type}
    (store : List (String × List (String × V))) (category : String)
    (parameters : List (String × V)) (k : String) (other : String)
    (hother : other ≠ category) :
    (lookupD parameters k = none →
      lookupD ((lookupD (updateParameters store category parameters) category).getD []) k
        = lookupD ((lookupD store category).getD []) k) ∧
    (∀ v, lookupD parameters k = some v →
      lookupD ((lookupD (updateParameters store category parameters) category).getD []) k
        = some v) ∧
    lookupD (updateParameters store category parameters) other = lookupD store other := by
  have hcat : lookupD (updateParameters store category parameters) category
      = some (mergeDict ((lookupD store category).getD []) parameters) := by
    unfold updateParameters
    exact lookupD_setCategory_self _ _ _
  refine ⟨?_, ?_, ?_⟩
  · intro hnone
    rw [hcat]
    simpa using lookupD_mergeDict_missing ((lookupD store category).getD []) parameters k hnone
  · intro v hsome
    rw [hcat]
    simpa using lookupD_mergeDict_supplied ((lookupD store category).getD []) parameters k v hsome
  · unfold updateParameters
    exact lookupD_setCategory_other _ _ _ _ hother

/-- Witness: updating `matching_algorithm.skills_weight` keeps the unsupplied
`top_k_results` key and the untouched `notification_settings` category. -/
theorem update_parameters_merge_frame_witness :
    (lookupD ((lookupD (updateParameters
        [("matching_algorithm", [("skills_weight", (4:ℚ)/10), ("top_k_results", 10)]),
         ("notification_settings", [("notification_threshold", 70)])]
        "matching_algorithm" [("skills_weight", 1/2)]) "matching_algorithm").getD [])
      "top_k_results" = some (10 : ℚ)) ∧
    (lookupD ((lookupD (updateParameters
        [("matching_algorithm", [("skills_weight", (4:ℚ)/10), ("top_k_results", 10)]),
         ("notification_settings", [("notification_threshold", 70)])]
        "matching_algorithm" [("skills_weight", 1/2)]) "matching_algorithm").getD [])
      "skills_weight" = some ((1:ℚ)/2)) ∧
    (lookupD (updateParameters
        [("matching_algorithm", [("skills_weight", (4:ℚ)/10), ("top_k_results", 10)]),
         ("notification_settings", [("notification_threshold", 70)])]
        "matching_algorithm" [("skills_weight", 1/2)]) "notification_settings"
      = some [("notification_threshold", 70)]) := by
  have h := update_parameters_merge_frame
    [("matching_algorithm", [("skills_weight", (4:ℚ)/10), ("top_k_results", 10)]),
     ("notification_settings", [("notification_threshold", 70)])]
    "matching_algorithm" [("skills_weight", 1/2)] "top_k_results" "notification_settings"
    (by decide)
  have h2 := update_parameters_merge_frame
    [("matching_algorithm", [("skills_weight", (4:ℚ)/10), ("top_k_results", 10)]),
     ("notification_settings", [("notification_threshold", 70)])]
    "matching_algorithm" [("skills_weight", 1/2)] "skills_weight" "notification_settings"
    (by decide)
  refine ⟨?_, ?_, ?_⟩
  · rw [h.1 (by simp [lookupD])]
    simp [lookupD]
  · exact h2.2.1 _ (by simp [lookupD])
  · rw [h.2.2]
    simp [lookupD]

/-- C2: a `matching_algorithm` update whose effective weights differ from 1.0
by more than the 0.01 tolerance is rejected at configuration time — the
weight-sum validation error is raised and the HTTP 400 response is returned
before `update_parameters` (and hence any scoring) runs, with no
renormalization; a weight set within the tolerance passes the weight-sum
check; in particular the all-0.5 weight set is rejected. -/
theorem invalid_weight_sum_rejected (store : List (String × ℚ)) (p : MatchingParamsUpdate) :
    (|effectiveWeightSum p - 1| > 1/100 →
      weightSumErrorMsg ∈ (validateMatchingParameters p).errors ∧
      (validateMatchingParameters p).valid = false ∧
      updateMatchingParametersEndpoint store p
        = Except.error (400, (validateMatchingParameters p).errors)) ∧
    (|effectiveWeightSum p - 1| ≤ 1/100 →
      weightSumErrorMsg ∉ (validateMatchingParameters p).errors) ∧
    (validateMatchingParameters
        ⟨none, some (1/2), some (1/2), some (1/2), some (1/2)⟩).valid = false := by
  refine ⟨?_, ?_, ?_⟩
  · intro hgt
    have herr : weightSumErrorMsg ∈ (validateMatchingParameters p).errors := by
      unfold validateMatchingParameters
      simp only [if_pos hgt]
      simp
    have hvalid : (validateMatchingParameters p).valid = false := by
      unfold validateMatchingParameters at herr ⊢
      simp only [List.isEmpty_eq_false_iff_exists_mem]
      simp only at herr
      exact ⟨weightSumErrorMsg, herr⟩
    refine ⟨herr, hvalid, ?_⟩
    simp [updateMatchingParametersEndpoint, hvalid]
  · intro hle hmem
    unfold validateMatchingParameters at hmem
    rw [if_neg (not_lt.mpr hle)] at hmem
    simp only [List.append_nil, List.mem_append] at hmem
    have hne1 : weightSumErrorMsg ≠ "similarity_threshold 0.0-1.0 arasında olmalı" := by
      decide
    have hne2 : weightSumErrorMsg ≠ "skills_weight 0.0-1.0 arasında olmalı" := by decide
    rcases hmem with hmem | hmem
    · rcases hst : p.similarity_threshold with _ | t <;> simp only [hst] at hmem
      · exact absurd hmem (List.not_mem_nil _)
      · split at hmem
        · exact absurd hmem (List.not_mem_nil _)
        · exact hne1 (by simpa using hmem)
    · rcases hsw : p.skills_weight with _ | w <;> simp only [hsw] at hmem
      · exact absurd hmem (List.not_mem_nil _)
      · split at hmem
        · exact absurd hmem (List.not_mem_nil _)
        · exact hne2 (by simpa using hmem)
  · unfold validateMatchingParameters effectiveWeightSum
    norm_num [weightSumErrorMsg]

/-- Witness: the all-0.5 weight set (sum 2.0) is rejected before any update:
the endpoint returns HTTP 400 with the weight-sum error among the reported
validation errors. -/
theorem invalid_weight_sum_rejected_witness :
    weightSumErrorMsg ∈ (validateMatchingParameters
      ⟨none, some (1/2), some (1/2), some (1/2), some (1/2)⟩).errors ∧
    updateMatchingParametersEndpoint []
        ⟨none, some (1/2), some (1/2), some (1/2), some (1/2)⟩
      = Except.error (400, (validateMatchingParameters
          ⟨none, some (1/2), some (1/2), some (1/2), some (1/2)⟩).errors) := by
  have h := (invalid_weight_sum_rejected []
    ⟨none, some (1/2), some (1/2), some (1/2), some (1/2)⟩).1
    (by norm_num [effectiveWeightSum])
  exact ⟨h.1, h.2.2⟩

/-- C4 (amended): the advanced-search skill filter retains a candidate exactly
when its case-insensitive matched-required-skill count is at least
`ceil(0.7 * len(required_skills))`; overall retention additionally requires
the `min_score`, experience and education filters and the `top_k` cut.  The
filter runs over already-scored entries: every retained entry is one of the
scored matches, unchanged. -/
theorem advanced_search_skill_filter (found : List MatchEntry) (p : SearchParams)
    (e : MatchEntry) (hreq : p.required_skills ≠ []) :
    (e ∈ advancedSearchResults found p →
      e ∈ found ∧ passesSkillFilter p.required_skills e.skills = true) ∧
    (passesSkillFilter p.required_skills e.skills = true ↔
      Nat.ceil ((7/10 : ℚ) * (p.required_skills.length : ℚ))
        ≤ requiredMatchedCount p.required_skills e.skills) := by
  constructor
  · intro hmem
    have hmem2 : e ∈ found.filter (passesFilters p) := List.mem_of_mem_take hmem
    have hf := List.mem_filter.mp hmem2
    refine ⟨hf.1, ?_⟩
    have hb := hf.2
    unfold passesFilters at hb
    simp only [Bool.and_eq_true] at hb
    exact hb.1.1.2
  · unfold passesSkillFilter
    have hie : p.required_skills.isEmpty = false := by
      simpa [List.isEmpty_iff] using hreq
    rw [hie, Bool.false_or, decide_eq_true_eq, Nat.ceil_le, mul_comm]

/-- Witness: for the one-skill posting, the skill filter decision is exactly
the 70%-ceiling condition. -/
theorem advanced_search_skill_filter_witness :
    passesSkillFilter ["python"] ["python"] = true ↔
      Nat.ceil ((7/10 : ℚ) * ((["python"] : List String).length : ℚ))
        ≤ requiredMatchedCount ["python"] ["python"] :=
  (advanced_search_skill_filter [] ⟨20, 50, ["python"], 0, ""⟩
    ⟨"cv1", 60, ["python"], 2, []⟩ (by decide)).2

/-- C4 counterexample: a candidate holding the full required-skill set
(1 of 1 matched, meeting `ceil(0.7 * 1) = 1`) is nevertheless not retained by
advanced search, because its score 40 is below the default `min_score` of 50
— so retention is not equivalent to the skill-count condition. -/
theorem advanced_search_drops_full_skill_match :
    requiredMatchedCount ["python"] ["python"] = 1 ∧
    Nat.ceil ((7/10 : ℚ) * ((1 : ℕ) : ℚ)) = 1 ∧
    advancedSearchResults [⟨"cv1", 40, ["python"], 0, []⟩] ⟨20, 50, ["python"], 0, ""⟩
      = [] := by
  refine ⟨by decide, ?_, ?_⟩
  · rw [Nat.cast_one, mul_one]
    have h1 : Nat.ceil ((7:ℚ)/10) ≤ 1 := Nat.ceil_le.mpr (by norm_num)
    have h2 : 0 < Nat.ceil ((7:ℚ)/10) := Nat.lt_ceil.mpr (by norm_num)
    omega
  · have hdrop : passesFilters ⟨20, 50, ["python"], 0, ""⟩ ⟨"cv1", 40, ["python"], 0, []⟩
        = false := by
      unfold passesFilters
      have : decide ((⟨"cv1", 40, ["python"], 0, []⟩ : MatchEntry).score
          < (⟨20, 50, ["python"], 0, ""⟩ : SearchParams).min_score) = true := by
        rw [decide_eq_true_eq]
        norm_num
      rw [this]
      simp
    simp [advancedSearchResults, List.filter_cons, hdrop]

/-- The matched-skill count is the cardinality of the intersection of the
lowercase-normalized skill sets, when the normalized required list has no
duplicates. -/
lemma matchedSkills_length_eq_card (R C : List String) (hnd : (R.map lowerStr).Nodup) :
    (matchedSkills R C).length
      = ((R.map lowerStr).toFinset ∩ (C.map lowerStr).toFinset).card := by
  have h1 : (matchedSkills R C).length
      = ((R.map lowerStr).filter (fun s => (C.map lowerStr).contains s)).length := by
    rw [matchedSkills, ← List.countP_eq_length_filter, ← List.countP_eq_length_filter,
      List.countP_map]
    rfl
  rw [h1, ← List.toFinset_card_of_nodup (List.Nodup.filter _ hnd), List.toFinset_filter]
  congr 1
  rw [← Finset.filter_mem_eq_inter]
  apply Finset.filter_congr
  intro x _
  simp [List.contains, List.elem_iff, List.mem_toFinset]

/-- C3 (spec-modelled): for non-empty required skills (with distinct
normalized names), `skills_score = |required ∩ candidate| / |required|` on
lowercase-normalized skill names; for empty required skills it is 1.0 by
convention; and on the spec scenario the score is 1.0 with matched
`["Python","SQL"]`, extra `["Docker"]` and missing `[]`. -/
theorem skills_score_spec (R C : List String) (hne : R ≠ [])
    (hnd : (R.map lowerStr).Nodup) :
    skillsScore R C
      = (((R.map lowerStr).toFinset ∩ (C.map lowerStr).toFinset).card : ℚ)
        / ((R.map lowerStr).toFinset.card : ℚ) ∧
    (∀ D, skillsScore [] D = 1) ∧
    skillsScore ["Python", "SQL"] ["Python", "SQL", "Docker"] = 1 ∧
    matchedSkills ["Python", "SQL"] ["Python", "SQL", "Docker"] = ["Python", "SQL"] ∧
    extraSkills ["Python", "SQL"] ["Python", "SQL", "Docker"] = ["Docker"] ∧
    missingSkills ["Python", "SQL"] ["Python", "SQL", "Docker"] = [] := by
  refine ⟨?_, fun D => rfl, ?_, by decide, by decide, by decide⟩
  · unfold skillsScore
    rw [if_neg (by simpa [List.isEmpty_iff] using hne)]
    rw [matchedSkills_length_eq_card R C hnd]
    rw [List.toFinset_card_of_nodup hnd, List.length_map]
  · have hm : (matchedSkills ["Python", "SQL"] ["Python", "SQL", "Docker"]).length = 2 := by
      decide
    norm_num [skillsScore, hm]

/-- Witness: the spec scenario instantiates the set-ratio formula. -/
theorem skills_score_spec_witness :
    skillsScore ["Python", "SQL"] ["Python", "SQL", "Docker"]
      = (((["Python", "SQL"].map lowerStr).toFinset ∩
          (["Python", "SQL", "Docker"].map lowerStr).toFinset).card : ℚ)
        / ((["Python", "SQL"].map lowerStr).toFinset.card : ℚ) :=
  (skills_score_spec ["Python", "SQL"] ["Python", "SQL", "Docker"]
    (by decide) (by decide)).1

lemma dotR_nil_left (v : List ℝ) : dotR [] v = 0 := rfl

lemma dotR_nil_right (u : List ℝ) : dotR u [] = 0 := by cases u <;> rfl

lemma dotR_cons (x y : ℝ) (xs ys : List ℝ) :
    dotR (x :: xs) (y :: ys) = x * y + dotR xs ys := by
  simp [dotR]

/-- A dot product of a vector with itself is a sum of squares. -/
lemma dotR_self_nonneg (u : List ℝ) : 0 ≤ dotR u u := by
  induction u with
  | nil => simp [dotR]
  | cons x xs ih =>
    rw [dotR_cons]
    nlinarith [mul_self_nonneg x]

/-- Cauchy-Schwarz for list dot products, squared form. -/
lemma dotR_sq_le (u v : List ℝ) : (dotR u v) ^ 2 ≤ dotR u u * dotR v v := by
  induction u generalizing v with
  | nil => simp [dotR_nil_left]
  | cons x xs ih =>
    cases v with
    | nil => simp [dotR_nil_right]
    | cons y ys =>
      rw [dotR_cons, dotR_cons, dotR_cons]
      have hA : 0 ≤ dotR xs xs := dotR_self_nonneg xs
      have hB : 0 ≤ dotR ys ys := dotR_self_nonneg ys
      have hih := ih ys
      rcases eq_or_lt_of_le hB with hB0 | hBpos
      · have hd0 : dotR xs ys = 0 := by
          have h2 : (dotR xs ys) ^ 2 ≤ 0 := by
            calc (dotR xs ys) ^ 2 ≤ dotR xs xs * dotR ys ys := hih
            _ = 0 := by rw [← hB0]; ring
          have := sq_nonneg (dotR xs ys)
          nlinarith
        rw [hd0, ← hB0]
        nlinarith [mul_self_nonneg y, mul_self_nonneg x, mul_nonneg hA (mul_self_nonneg y)]
      · nlinarith [sq_nonneg (x * dotR ys ys - y * dotR xs ys),
          mul_nonneg (sub_nonneg.2 hih) (add_nonneg (mul_self_nonneg y) hB),
          hBpos]

/-- Elementwise division by the two norms factors out of the dot product. -/
lemma dotR_map_div (u v : List ℝ) (a b : ℝ) :
    dotR (u.map (fun x => x / a)) (v.map (fun y => y / b)) = dotR u v / (a * b) := by
  induction u generalizing v with
  | nil => simp [dotR_nil_left]
  | cons x xs ih =>
    cases v with
    | nil => simp [dotR_nil_right]
    | cons y ys =>
      simp only [List.map_cons]
      rw [dotR_cons, dotR_cons, ih, div_mul_div_comm, add_div]

/-- Cauchy-Schwarz with square roots. -/
lemma abs_dotR_le (u v : List ℝ) : |dotR u v| ≤ l2norm u * l2norm v := by
  have h := dotR_sq_le u v
  have habs : |dotR u v| = Real.sqrt ((dotR u v) ^ 2) := (Real.sqrt_sq_eq_abs _).symm
  rw [habs]
  calc Real.sqrt ((dotR u v) ^ 2) ≤ Real.sqrt (dotR u u * dotR v v) :=
        Real.sqrt_le_sqrt h
    _ = l2norm u * l2norm v := Real.sqrt_mul (dotR_self_nonneg u) _

/-- C1 (amended): for nonzero embedding vectors, the `similarity_score`
returned by `calculate_similarity` is 100 times the cosine of the two
vectors and lies in [-100, 100]; no clamp to [0, 100] and no weighted blend
is applied. -/
theorem calculate_similarity_range (u v : List ℝ)
    (hu : dotR u u ≠ 0) (hv : dotR v v ≠ 0) :
    similarityScore u v = 100 * (dotR u v / (l2norm u * l2norm v)) ∧
    -100 ≤ similarityScore u v ∧ similarityScore u v ≤ 100 := by
  have hAnn : 0 ≤ dotR u u := dotR_self_nonneg u
  have hBnn : 0 ≤ dotR v v := dotR_self_nonneg v
  have hApos : 0 < dotR u u := lt_of_le_of_ne hAnn (Ne.symm hu)
  have hBpos : 0 < dotR v v := lt_of_le_of_ne hBnn (Ne.symm hv)
  have hna : 0 < l2norm u := Real.sqrt_pos.mpr hApos
  have hnb : 0 < l2norm v := Real.sqrt_pos.mpr hBpos
  have hform : similarityScore u v = 100 * (dotR u v / (l2norm u * l2norm v)) := by
    unfold similarityScore normalizeR
    rw [dotR_map_div]
    ring
  have hden : 0 < l2norm u * l2norm v := mul_pos hna hnb
  have hcos : |dotR u v / (l2norm u * l2norm v)| ≤ 1 := by
    rw [abs_div, abs_of_pos hden]
    exact (div_le_one hden).mpr (abs_dotR_le u v)
  refine ⟨hform, ?_, ?_⟩
  · rw [hform]
    nlinarith [abs_le.mp hcos]
  · rw [hform]
    nlinarith [abs_le.mp hcos]

/-- Witness: two concrete orthogonal unit vectors stay inside the
[-100, 100] range. -/
theorem calculate_similarity_range_witness :
    -100 ≤ similarityScore [1, 0] [0, 1] ∧ similarityScore [1, 0] [0, 1] ≤ 100 :=
  let h := calculate_similarity_range [1, 0] [0, 1]
    (by norm_num [dotR]) (by norm_num [dotR])
  ⟨h.2.1, h.2.2⟩

/-- C1 counterexample: for opposite unit embedding vectors the returned
`similarity_score` is -100 — the weighted blend clamped to [0, 1] required by
the claim would never produce a negative score. -/
theorem calculate_similarity_negative :
    similarityScore [1, 0] [-1, 0] = -100 ∧ ¬ (0 ≤ similarityScore [1, 0] [-1, 0]) := by
  have h1 : dotR [1, 0] [1, 0] = 1 := by norm_num [dotR]
  have h2 : dotR [-1, 0] [-1, 0] = 1 := by norm_num [dotR]
  have hn1 : l2norm [1, 0] = 1 := by rw [l2norm, h1, Real.sqrt_one]
  have hn2 : l2norm [-1, 0] = 1 := by rw [l2norm, h2, Real.sqrt_one]
  have hs : similarityScore [1, 0] [-1, 0] = -100 := by
    unfold similarityScore normalizeR
    rw [hn1, hn2, dotR_map_div]
    norm_num [dotR]
  exact ⟨hs, by rw [hs]; norm_num⟩
